import Mathlib

/-!
Verification of the document discovery and extraction pipeline
(app/web_collect.py and app/web_search.py) against its specification.

The Python modules are shallowly embedded as Lean definitions.  Strings are
Lean `String`s (lists of characters); network and third-party-library effects
(the HTTP transport, trafilatura, pdfplumber / pypdf page opening) are
passed in as explicit oracle parameters, so that every function of the source
becomes a total Lean function of its inputs and its environment.
-/

namespace WebCollect

/- ===== Python string primitives used by the source ===== -/

/-- Python whitespace class for the whitespace regex class and `str.strip`,
restricted to the ASCII whitespace characters. -/
def pyIsSpace (c : Char) : Bool :=
  c = ' ' || c = '\t' || c = '\n' || c = '\r' || c = '\x0b' || c = '\x0c'

/-- ASCII decimal digit, model of the regex digit class. -/
def isDigitChar (c : Char) : Bool :=
  '0' ≤ c && c ≤ '9'

/-- ASCII word character, model of the regex word class used by the
word-boundary assertion. -/
def isWordChar (c : Char) : Bool :=
  isDigitChar c || ('a' ≤ c && c ≤ 'z') || ('A' ≤ c && c ≤ 'Z') || c = '_'

/-- Model of Python `str.lower` (ASCII case folding). -/
def pyLower (s : String) : String :=
  ⟨s.data.map Char.toLower⟩

/-- Substring test on character lists: does `needle` occur contiguously in
`hay`?  Model of the Python `in` operator on strings. -/
def listHas (needle : List Char) : List Char → Bool
  | [] => needle.isEmpty
  | c :: rest => needle.isPrefixOf (c :: rest) || listHas needle rest

/-- Python `needle in hay` substring test on strings. -/
def substrB (needle hay : String) : Bool :=
  listHas needle.data hay.data

/-- Python `s.endswith(suf)`. -/
def endsWithB (suf s : String) : Bool :=
  suf.data.isSuffixOf s.data

/-- Python `s.startswith(pre)`. -/
def startsWithB (pre s : String) : Bool :=
  pre.data.isPrefixOf s.data

/-- Numeric value of a list of ASCII digits, most significant first. -/
def natOfDigits (l : List Char) : Nat :=
  l.foldl (fun acc c => acc * 10 + (c.toNat - '0'.toNat)) 0

/-- Model of Python `int(s)` on a string: optional surrounding whitespace,
optional sign, then at least one digit; `none` models a raised ValueError. -/
def pyInt? (s : String) : Option Int :=
  let l := (s.data.dropWhile pyIsSpace).reverse.dropWhile pyIsSpace |>.reverse
  match l with
  | '-' :: ds => if ds ≠ [] && ds.all isDigitChar then some (-(natOfDigits ds : Int)) else none
  | '+' :: ds => if ds ≠ [] && ds.all isDigitChar then some ((natOfDigits ds : Int)) else none
  | ds => if ds ≠ [] && ds.all isDigitChar then some ((natOfDigits ds : Int)) else none

/-- Python `s.rstrip(c)` for a single character. -/
def rstripChar (c : Char) (s : String) : String :=
  ⟨(s.data.reverse.dropWhile (· = c)).reverse⟩

/-- Python `s.lstrip(c)` for a single character. -/
def lstripChar (c : Char) (s : String) : String :=
  ⟨s.data.dropWhile (· = c)⟩

/-- True when the string has a character that is not whitespace; model of the
truthiness of Python `s.strip()`. -/
def hasNonWs (s : String) : Bool :=
  s.data.any (fun c => !(pyIsSpace c))

/-- Remove every occurrence of a nonempty pattern, scanning left to right;
model of Python `s.replace(sub, "")` for nonempty `sub`.  The first argument
is fuel bounding the number of steps; every step consumes at least one
character, so fuel equal to the input length is always enough. -/
def removeSubF (sub : List Char) : Nat → List Char → List Char
  | 0, l => l
  | _ + 1, [] => []
  | fuel + 1, c :: rest =>
    if sub ≠ [] && sub.isPrefixOf (c :: rest) then
      removeSubF sub fuel (rest.drop (sub.length - 1))
    else
      c :: removeSubF sub fuel rest

/-- Python `s.replace(sub, "")` on strings. -/
def pyRemove (s sub : String) : String :=
  ⟨removeSubF sub.data s.data.length s.data⟩

/-- Helper for `pySplitWs`: the accumulator holds the current word reversed. -/
def splitWsAux : List Char → List Char → List String
  | [], acc => if acc.isEmpty then [] else [⟨acc.reverse⟩]
  | c :: rest, acc =>
    if pyIsSpace c then
      if acc.isEmpty then splitWsAux rest []
      else ⟨acc.reverse⟩ :: splitWsAux rest []
    else
      splitWsAux rest (c :: acc)

/-- Python `s.split()` with no argument: split on runs of whitespace,
discarding empty pieces. -/
def pySplitWs (s : String) : List String :=
  splitWsAux s.data []

/-- Helper for `collapseWs`: the flag records whether the previous kept
character position was inside a whitespace run. -/
def collapseWsAux : Bool → List Char → List Char
  | _, [] => []
  | prevSpace, c :: rest =>
    if pyIsSpace c then
      if prevSpace then collapseWsAux true rest
      else ' ' :: collapseWsAux true rest
    else c :: collapseWsAux false rest

/-- Collapse every maximal run of whitespace to a single space; model of
Python `re.sub` of one-or-more-whitespace with a single space. -/
def collapseWs (l : List Char) : List Char :=
  collapseWsAux false l

end WebCollect

namespace WebCollect

/- ===== web_collect.py: constants, trim_text, unique_urls ===== -/

def DEFAULT_TIMEOUT : Nat := 20
def MAX_TEXT_CHARS : Nat := 25000
def MAX_REPORT_TEXT_CHARS : Nat := 50000
def MAX_URLS_PER_BUCKET : Nat := 10
def MAX_PDF_SIZE_MB : Nat := 50

/-- Source: web_collect.trim_text.  Collapse whitespace and trim to limit. -/
def trim_text (text : String) (limit : Nat := MAX_TEXT_CHARS) : String :=
  if text = "" then ""
  else ⟨(collapseWs text.data).take limit⟩

/-- Source: web_collect.unique_urls, inner loop carrying the `seen` set and
emitting kept URLs in order. -/
def uniqueUrlsAux : List String → List String → List String
  | [], _ => []
  | u :: rest, seen =>
    if u = "" || u ∈ seen then uniqueUrlsAux rest seen
    else u :: uniqueUrlsAux rest (u :: seen)

/-- Source: web_collect.unique_urls.  Deduplicate URLs preserving order. -/
def unique_urls (urls : List String) : List String :=
  uniqueUrlsAux urls []

end WebCollect

namespace WebCollect

/- ===== A small regex matcher for the fixed TOC patterns =====

The four patterns searched by `_find_investment_section_pages` are sequences
of string literals, greedy one-or-more / zero-or-more character-class
repetitions, and a greedy any-character-but-newline repetition, all followed
by a trailing captured digit group.  The matcher below implements exactly
Python re semantics for this fragment: leftmost match start, greedy
repetition with backtracking, and the capture of the final digit run. -/

inductive RItem where
  | lit : List Char → RItem
  | star : (Char → Bool) → RItem
  | plus : (Char → Bool) → RItem

/-- Suffixes of `s` after consuming `k` class characters, for `k` from the
maximal run length down to 0 (greedy order for a starred class). -/
def starSuffixes (p : Char → Bool) (s : List Char) : List (List Char) :=
  let run := (s.takeWhile p).length
  (List.range (run + 1)).map (fun j => s.drop (run - j))

/-- Greedy order suffixes for a one-or-more repetition: consume the maximal
run first, down to one character; empty when no class character is next. -/
def plusSuffixes (p : Char → Bool) (s : List Char) : List (List Char) :=
  let run := (s.takeWhile p).length
  (List.range run).map (fun j => s.drop (run - j))

/-- The trailing captured digit group: at least one digit must follow, and
the greedy group takes the maximal digit run. -/
def matchTailDigits (s : List Char) : Option Nat :=
  let ds := s.takeWhile isDigitChar
  if ds.isEmpty then none else some (natOfDigits ds)

/-- Match a sequence of items against the front of `s` with backtracking,
then the trailing digit group; returns the captured number. -/
def goMatch : List RItem → List Char → Option Nat
  | [], s => matchTailDigits s
  | .lit l :: rest, s =>
    if l.isPrefixOf s then goMatch rest (s.drop l.length) else none
  | .star p :: rest, s => List.findSome? (fun t => goMatch rest t) (starSuffixes p s)
  | .plus p :: rest, s => List.findSome? (fun t => goMatch rest t) (plusSuffixes p s)

/-- Leftmost search of a pattern in `s` (Python re.search). -/
def reSearch (items : List RItem) : List Char → Option Nat
  | [] => goMatch items []
  | c :: rest =>
    match goMatch items (c :: rest) with
    | some n => some n
    | none => reSearch items rest

/-- Character class of a dot or whitespace, written in the source patterns
as a bracket class of a literal dot and the whitespace class. -/
def dotOrSpace (c : Char) : Bool := c = '.' || pyIsSpace c

/-- Any character except newline: the regex dot with default flags. -/
def anyNotNl (c : Char) : Bool := c ≠ '\n'

/-- Source: the four TOC patterns of `_find_investment_section_pages`, in
order, each ending in the captured page-number digit group. -/
def tocPatterns : List (List RItem) :=
  [ [.lit "investment".data, .plus pyIsSpace, .lit "section".data, .star dotOrSpace],
    [.lit "report".data, .star anyNotNl, .lit "chief investment officer".data,
      .star dotOrSpace],
    [.lit "cio".data, .plus pyIsSpace, .lit "report".data, .star dotOrSpace],
    [.lit "investment".data, .plus pyIsSpace, .lit "overview".data, .star dotOrSpace] ]

/-- First TOC pattern matching the lowercased page text, yielding the
captured page number (the source tries the patterns in order and breaks on
the first match). -/
def pagePatternNum (text : String) : Option Nat :=
  List.findSome? (fun items => reSearch items (pyLower text).data) tocPatterns

/-- Source: the header phrases of the fallback direct scan. -/
def headerMarkers : List String :=
  [ "investment section",
    "report from the chief investment officer",
    "report of the chief investment officer",
    "chief investment officer\x27s report" ]

/-- The TOC loop of `_find_investment_section_pages` over the first 15
pages: the loop breaks on the first computed start that is nonzero; a match
whose `max(0, N - 3)` is zero is retained only in a variable that is then
overwritten or tested false, so the loop result is the first page giving a
number `N` with `N - 3 > 0`. -/
def tocLoop : List String → Option Nat
  | [] => none
  | p :: rest =>
    match pagePatternNum p with
    | some n => if n - 3 ≠ 0 then some (n - 3) else tocLoop rest
    | none => tocLoop rest

/-- The fallback header scan of `_find_investment_section_pages` over the
physical page window from `min(30, total)` to `min(120, total)`. -/
def headerScan (pages : List String) : Option (Nat × Nat) :=
  let total := pages.length
  let scanStart := min 30 total
  let scanEnd := min 120 total
  match (List.range' scanStart (scanEnd - scanStart)).find?
      (fun i => headerMarkers.any (fun m => substrB m (pyLower (pages.getD i "")))) with
  | some i => some (i, min (i + 40) total)
  | none => none

/-- Source: web_collect._find_investment_section_pages.  A PDF is embedded
as the list of its page texts; `none` models the Python `(None, None)`
result. -/
def find_investment_section_pages (pages : List String) : Option (Nat × Nat) :=
  match tocLoop (pages.take 15) with
  | some s => some (s, min (s + 40) pages.length)
  | none => headerScan pages

end WebCollect

namespace WebCollect

/- ===== PDF page model, relevance scoring, extraction paths ===== -/

/-- A PDF page as the extractors see it: its extracted text and its
extracted tables (a table is a list of rows; a cell may be None). -/
structure PdfPage where
  text : String
  tables : List (List (List (Option String)))

/-- A parsed PDF document is its list of pages. -/
abbrev PDFDoc := List PdfPage

/-- Source: web_collect.INVESTMENT_SECTION_MARKERS. -/
def INVESTMENT_SECTION_MARKERS : List String :=
  [ "investment section",
    "report from the chief investment officer",
    "chief investment officer",
    "report of the cio",
    "investment report",
    "investment overview",
    "asset allocation",
    "investment policy",
    "investment consultant",
    "investment performance" ]

/-- Source: web_collect.HIGH_VALUE_KEYWORDS. -/
def HIGH_VALUE_KEYWORDS : List String :=
  [ "asset allocation", "asset class", "target allocation", "actual allocation",
    "private equity", "private markets", "real estate", "real assets",
    "hedge fund", "absolute return", "fixed income", "public equity",
    "investment policy", "investment strategy", "investment philosophy",
    "chief investment officer", "cio", "investment staff", "investment team",
    "consultant", "verus", "nepc", "callan", "mercer", "cambridge",
    "commitment", "committed", "co-invest", "coinvest", "direct investment",
    "manager", "fund commitment", "private credit", "infrastructure",
    "emerging manager", "diverse manager", "risk parity", "commodities",
    "performance", "benchmark", "return", "allocation percentage",
    "board of trustees", "executive director", "fiduciary" ]

/-- Source: web_collect._score_page_relevance.  Five points per present
section marker, one point per present keyword, on the lowercased text. -/
def score_page_relevance (text : String) : Nat :=
  if text = "" then 0
  else
    let tl := pyLower text
    let s1 := INVESTMENT_SECTION_MARKERS.foldl
      (fun acc m => if substrB m tl then acc + 5 else acc) 0
    HIGH_VALUE_KEYWORDS.foldl
      (fun acc k => if substrB k tl then acc + 1 else acc) s1

/-- Model of Python `sorted(set(xs))` for a candidate list whose members are
all below `bound`: the increasing enumeration of the distinct members. -/
def sortedNatSet (cands : List Nat) (bound : Nat) : List Nat :=
  (List.range bound).filter (fun i => cands.contains i)

/-- Python `range(start, stop, step)` for positive step. -/
def strideRange (start stop step : Nat) : List Nat :=
  List.range' start ((stop - start + step - 1) / step) step

/-- The sampling fallback of the pdfplumber path: fixed stride ranges, with
the loop breaking at the first range starting at or past the page count. -/
def sampleIdxs (total : Nat) : List Nat :=
  let ranges : List (Nat × Nat × Nat) := [(15, 50, 3), (50, 100, 2), (100, 150, 4)]
  (ranges.takeWhile (fun r => r.1 < total)).foldl
    (fun acc r => acc ++ strideRange r.1 (min r.2.1 total) r.2.2) []

/-- Page selection of web_collect.extract_text_from_pdf_pdfplumber: always
the first 15 pages, then the located section range or the sampled middle,
then the last 5 pages; sorted, deduplicated, truncated to `maxPages`. -/
def pagesToReadPlumber (doc : PDFDoc) (maxPages : Nat := 100) : List Nat :=
  let total := doc.length
  let first15 := List.range (min 15 total)
  let mid := match find_investment_section_pages (doc.map PdfPage.text) with
    | some (s, e) => List.range' s (e - s)
    | none => sampleIdxs total
  let last5 := List.range' (total - 5) (total - (total - 5))
  (sortedNatSet (first15 ++ mid ++ last5) total).take maxPages

/-- The page text plus every flattened table row (pipe-joined cells, empty
cells as empty strings, blank rows skipped), as built in the pdfplumber
extraction loop. -/
def pageFullText (pg : PdfPage) : String :=
  pg.tables.foldl (fun t table =>
    if table.isEmpty then t
    else table.foldl (fun t' row =>
      if row.isEmpty then t'
      else
        let rowText := String.intercalate " | "
          (row.map (fun cell => (cell.getD "")))
        if hasNonWs rowText then t' ++ "\n" ++ rowText else t') t) pg.text

/-- The text read for page index i of a document (out-of-range indices give
the empty page, which the loops skip). -/
def pageText (doc : PDFDoc) (i : Nat) : String :=
  pageFullText (doc.getD i ⟨"", []⟩)

/-- The traceability tag put in front of a high-value page: its 1-based
page number, then the page text. -/
def pageTag (doc : PDFDoc) (i : Nat) : String :=
  "[Page " ++ toString (i + 1) ++ "]\n" ++ pageText doc i

/-- A read page goes to the high-value group: it has visible text and its
relevance score is at least 3. -/
def pageHighValue (doc : PDFDoc) (i : Nat) : Bool :=
  hasNonWs (pageText doc i) && decide (3 ≤ score_page_relevance (pageText doc i))

/-- A read page goes to the regular group: visible text scoring below 3. -/
def pageRegular (doc : PDFDoc) (i : Nat) : Bool :=
  hasNonWs (pageText doc i) && !decide (3 ≤ score_page_relevance (pageText doc i))

/-- One step of the scoring loop of the pdfplumber extraction path. -/
def splitStep (doc : PDFDoc) (acc : List String × List String) (i : Nat) :
    List String × List String :=
  let txt := pageText doc i
  if hasNonWs txt then
    if 3 ≤ score_page_relevance txt then
      (acc.1 ++ ["[Page " ++ toString (i + 1) ++ "]\n" ++ txt], acc.2)
    else
      (acc.1, acc.2 ++ [txt])
  else acc

/-- The scoring loop of the pdfplumber path: read pages in order, skip pages
with only whitespace, tag pages scoring at least 3 with their 1-based page
number into the high-value group, collect the rest in the regular group. -/
def splitScored (doc : PDFDoc) (idxs : List Nat) : List String × List String :=
  idxs.foldl (splitStep doc) ([], [])

/-- The emitted page texts of the pdfplumber path: the high-value group
first, then the regular group. -/
def plumberAllTexts (doc : PDFDoc) (idxs : List Nat) : List String :=
  (splitScored doc idxs).1 ++ (splitScored doc idxs).2

/-- Extraction over an opened document in the pdfplumber path. -/
def extractPlumberDoc (doc : PDFDoc) (maxPages : Nat := 100) : String :=
  String.intercalate "\n\n" (plumberAllTexts doc (pagesToReadPlumber doc maxPages))

/-- Page selection of web_collect.extract_text_from_pdf_pypdf: every page
when the document is small, else first 15 pages, a strided middle section
and the last 10 pages; sorted, deduplicated, truncated to `maxPages`. -/
def pagesToReadPypdf (doc : PDFDoc) (maxPages : Nat := 60) : List Nat :=
  let total := doc.length
  if total ≤ maxPages then List.range total
  else
    let first15 := List.range (min 15 total)
    let midStart := max 15 (total / 4)
    let midEnd := min total (3 * total / 4)
    let step := max 1 ((midEnd - midStart) / 30)
    let mid := strideRange midStart midEnd step
    let last10 := List.range' (total - 10) (total - (total - 10))
    (sortedNatSet (first15 ++ mid ++ last10) total).take maxPages

/-- Extraction over an opened document in the pypdf path: page texts only,
whitespace-only pages skipped, joined by blank lines. -/
def extractPypdfDoc (doc : PDFDoc) (maxPages : Nat := 60) : String :=
  String.intercalate "\n\n"
    (((pagesToReadPypdf doc maxPages).map (fun i => (doc.getD i ⟨"", []⟩).text)).filter hasNonWs)

/-- PDF bytes as the extractors see them: possibly empty, and possibly
unopenable by either reader (`none` models an open exception). -/
structure PdfData where
  isEmpty : Bool
  parsedPlumber : Option PDFDoc
  parsedPypdf : Option PDFDoc

/-- Source: web_collect.extract_text_from_pdf_pdfplumber.  Empty bytes, a
missing pdfplumber library, or an open failure yield the empty string. -/
def extract_text_from_pdf_pdfplumber (d : PdfData) (plumberAvail : Bool)
    (maxPages : Nat := 100) : String :=
  if d.isEmpty || !plumberAvail then ""
  else match d.parsedPlumber with
    | none => ""
    | some doc => extractPlumberDoc doc maxPages

/-- Source: web_collect.extract_text_from_pdf_pypdf.  Empty bytes or an open
failure yield the empty string. -/
def extract_text_from_pdf_pypdf (d : PdfData) (maxPages : Nat := 60) : String :=
  if d.isEmpty then ""
  else match d.parsedPypdf with
    | none => ""
    | some doc => extractPypdfDoc doc maxPages

/-- Source: web_collect.extract_text_from_pdf.  Try pdfplumber first when
available, fall back to pypdf when it yields nothing. -/
def extract_text_from_pdf (d : PdfData) (plumberAvail : Bool) : String :=
  if d.isEmpty then ""
  else if plumberAvail then
    let r := extract_text_from_pdf_pdfplumber d plumberAvail
    if r ≠ "" then r else extract_text_from_pdf_pypdf d
  else extract_text_from_pdf_pypdf d

end WebCollect

namespace WebCollect

/- ===== Fetcher: safe_get ===== -/

/-- A HEAD response: only the content-length header is consulted.  `none`
models an absent header (Python defaults it to the integer 0). -/
structure HeadResp where
  contentLength : Option String

/-- A GET response as consulted by safe_get. -/
structure GetResp where
  status : Nat
  contentType : String
  content : String
  text : String

/-- The transport environment of one safe_get call: the outcome of the HEAD
probe and of the GET; `Except.error` models a raised transport exception. -/
structure Transport where
  headResult : Except Unit HeadResp
  getResult : Except Unit GetResp

/-- Python `int(head.headers.get("content-length", 0))`: the missing header
defaults to integer zero; a malformed header raises (modelled as `none`). -/
def contentLengthInt (h : HeadResp) : Option Int :=
  match h.contentLength with
  | none => some 0
  | some s => pyInt? s

/-- The HEAD size probe block of safe_get: true exactly when the URL ends
in ".pdf", the HEAD succeeded, its content-length parsed, and the parsed
size exceeds the cap (a failed HEAD or unparsable header is swallowed and
fetching continues). -/
def pdfTooLarge (url : String) (t : Transport) : Bool :=
  if endsWithB ".pdf" (pyLower url) then
    match t.headResult with
    | .error _ => false
    | .ok h =>
      match contentLengthInt h with
      | none => false
      | some n => decide (n > (MAX_PDF_SIZE_MB : Int) * 1024 * 1024)
  else false

/-- Source: web_collect.safe_get.  Returns the `(content_type, body)` pair
(the empty pair on any failure) together with a flag recording whether the
GET request was issued at all. -/
def safe_get (url : String) (t : Transport) : (String × String) × Bool :=
  if url = "" then (("", ""), false)
  else if pdfTooLarge url t then (("", ""), false)
  else
    match t.getResult with
    | .error _ => (("", ""), true)
    | .ok resp =>
      if resp.status ≠ 200 then (("", ""), true)
      else
        let ct := pyLower resp.contentType
        let isPdf := substrB "pdf" ct || endsWithB ".pdf" (pyLower url)
        ((ct, if isPdf then resp.content else resp.text), true)

/- ===== HTML extractor ===== -/

/-- Source: web_collect.extract_text_from_html.  The trafilatura call is an
oracle returning either an exception (`Except.error`), no extraction
(`none`, Python None), or extracted text. -/
def extract_text_from_html (html : String)
    (trafilatura : String → Except Unit (Option String)) : String :=
  if html = "" then ""
  else
    match trafilatura html with
    | .error _ => ""
    | .ok extracted => extracted.getD ""

end WebCollect

namespace WebSearch

open WebCollect

/- ===== web_search.py: PDF relevance filter of find_investment_pages ===== -/

/-- One deduplicated search result as consumed by find_investment_pages. -/
structure SearchResult where
  link : String
  title : String
  snippet : String

/-- Source: `[w.lower() for w in allocator_name.split() if len(w) > 2]`. -/
def allocatorWords (name : String) : List String :=
  ((pySplitWs name).filter (fun w => 2 < w.length)).map pyLower

/-- Source: the lowercased allocator name with spaces, dashes and
underscores removed. -/
def allocatorCompressed (name : String) : String :=
  pyRemove (pyRemove (pyRemove (pyLower name) " ") "-") "_"

/-- Source: the `pdf_is_relevant` expression of find_investment_pages: the
compressed name occurs in the compressed URL, or the full lowercased name
occurs in the title or the snippet, or the first dot-separated label of the
known domain occurs in the URL, or some name word longer than four
characters occurs in the URL. -/
def pdfIsRelevant (name : String) (domain : Option String) (r : SearchResult) : Bool :=
  let urlLower := pyLower r.link
  let titleLower := pyLower r.title
  let snippetLower := pyLower r.snippet
  let urlCompressed := pyRemove (pyRemove (pyRemove urlLower "-") "_") "%20"
  substrB (allocatorCompressed name) urlCompressed
  || substrB (pyLower name) titleLower
  || substrB (pyLower name) snippetLower
  || (match domain with
      | some d => d ≠ "" && substrB ⟨(pyLower d).data.takeWhile (· ≠ '.')⟩ urlLower
      | none => false)
  || (allocatorWords name).any (fun w => 4 < w.length && substrB w urlLower)

/-- The pdf_urls bucket built by the categorization loop of
find_investment_pages: a result is appended exactly when its URL ends in
".pdf" and the relevance test passes. -/
def pdfUrlsOf (name : String) (domain : Option String)
    (results : List SearchResult) : List String :=
  results.foldl (fun acc r =>
    if endsWithB ".pdf" (pyLower r.link) && pdfIsRelevant name domain r then
      acc ++ [r.link]
    else acc) []

/- ===== web_search.py: snippet recency ranking ===== -/

/-- The relative-date words of extract_year. -/
def relDateWords : List String := ["day", "hour", "minute", "week", "month ago"]

/-- The bracketed date prefix: a literal opening bracket, one or more
characters other than a closing bracket (greedy), then a closing bracket;
anchored at the start of the snippet (Python re.match).  Returns the
captured group. -/
def bracketGroup : List Char → Option (List Char)
  | '[' :: rest =>
    let g := rest.takeWhile (· ≠ ']')
    if g.isEmpty || g.length = rest.length then none else some g
  | _ => none

/-- Leftmost occurrence of the literal "20" followed by two digits, with no
boundary assertions (the bracket-date year pattern); returns the year. -/
def searchYear : List Char → Option Nat
  | '2' :: '0' :: a :: b :: rest =>
    if isDigitChar a && isDigitChar b then some (2000 + natOfDigits [a, b])
    else searchYear ('0' :: a :: b :: rest)
  | _ :: rest => searchYear rest
  | [] => none

/-- All word-bounded occurrences of "20" followed by two digits (the
whole-snippet year pattern), scanning left to right without overlap; the
first argument is the character preceding the scan position. -/
def wbYears : Option Char → List Char → List Nat
  | prev, '2' :: '0' :: a :: b :: rest =>
    if (match prev with | none => true | some c => !isWordChar c)
        && isDigitChar a && isDigitChar b
        && (match rest with | [] => true | c :: _ => !isWordChar c) then
      (2000 + natOfDigits [a, b]) :: wbYears (some b) rest
    else
      wbYears (some '2') ('0' :: a :: b :: rest)
  | _, c :: rest => wbYears (some c) rest
  | _, [] => []

/-- The bracketed-date branch of extract_year: priority 0 for a relative
date word, 0 or 2 for a year inside the bracket, and `none` when the
bracket settles nothing (the scan then falls through to the whole text). -/
def bracketPriority (s : String) : Option Nat :=
  match bracketGroup s.data with
  | none => none
  | some g =>
    if relDateWords.any (fun w => listHas w.data (g.map Char.toLower)) then some 0
    else
      match searchYear (g.map Char.toLower) with
      | some y => some (if 2024 ≤ y then 0 else 2)
      | none => none

/-- The whole-snippet year scan of extract_year: 0 when the most recent
word-bounded year is 2024 or later, 2 when it is 2020 or earlier, else 1
(also for no year at all). -/
def textYearsPriority (s : String) : Nat :=
  match wbYears none s.data with
  | [] => 1
  | ys =>
    if 2024 ≤ ys.foldl max 0 then 0
    else if ys.foldl max 0 ≤ 2020 then 2
    else 1

/-- Source: the `extract_year` priority of sort_snippets_by_recency:
0 for a bracketed relative date or a year 2024 or later, 2 for old years,
1 otherwise. -/
def extractYearPriority (s : String) : Nat :=
  match bracketPriority s with
  | some p => p
  | none => textYearsPriority s

/-- Source: web_search.sort_snippets_by_recency.  Python sorted is a stable
sort by the priority key; `List.insertionSort` over the priority preorder is
stable and sorted, hence extensionally the same function. -/
def sort_snippets_by_recency (snippets : List String) : List String :=
  List.insertionSort (fun a b => extractYearPriority a ≤ extractYearPriority b) snippets

end WebSearch

namespace WebCollect

/- ===== Path guess lists ===== -/

/-- Source: web_collect.ABOUT_PATHS. -/
def ABOUT_PATHS : List String :=
  [ "/about", "/about-us", "/who-we-are", "/our-story", "/company", "/overview",
    "/mission", "/what-we-do", "/organization", "/organization-overview", "/team",
    "/our-team", "/leadership", "/management", "/executive-team", "/board",
    "/board-of-trustees", "/board-of-directors", "/staff", "/people",
    "/investment-team", "/investments-team", "/investment-office",
    "/investment-committee" ]

/-- Source: web_collect.INVESTMENT_PATHS. -/
def INVESTMENT_PATHS : List String :=
  [ "/investments", "/investment", "/investment-office", "/investment-division",
    "/investment-department", "/portfolio", "/fund-portfolio",
    "/investment-portfolio", "/portfolio-overview", "/holdings", "/strategy",
    "/investment-strategy", "/asset-allocation", "/assetallocation",
    "/allocations", "/investment-philosophy", "/alternatives", "/real-assets",
    "/private-equity", "/private-markets", "/real-estate", "/hedge-funds",
    "/credit", "/private-credit", "/infrastructure", "/natural-resources",
    "/direct-investing", "/direct-investments", "/co-invest", "/co-investments",
    "/coinvest", "/coinvestments" ]

/-- Source: web_collect.POLICY_PATHS. -/
def POLICY_PATHS : List String :=
  [ "/investment-policy", "/ips", "/investment-policy-statement",
    "/investment-guidelines", "/investment-principles", "/investment-committee",
    "/committees", "/governance", "/oversight", "/policies", "/rfp",
    "/requests-for-proposals", "/vendor-opportunities", "/manager-search",
    "/emerging-manager", "/emerging-managers", "/em-program", "/small-manager",
    "/diverse-manager" ]

/-- Source: web_collect.REPORT_PATHS. -/
def REPORT_PATHS : List String :=
  [ "/annual-report", "/annualreports", "/reports", "/financial-reports",
    "/financials", "/publications", "/cafr", "/cafrs", "/audit-reports",
    "/actuarial-reports", "/monthly-report", "/quarterly-report",
    "/investment-reports", "/performance-reports", "/market-commentary",
    "/meetings", "/board-meetings", "/committee-meetings", "/minutes",
    "/agendas" ]

/- ===== Base URL resolution and URL building ===== -/

/-- Python truthiness of an optional string field. -/
def truthyOpt (o : Option String) : Bool :=
  match o with
  | some s => s ≠ ""
  | none => false

/-- Python `s.strip()` with no argument. -/
def pyStrip (s : String) : String :=
  ⟨(s.data.dropWhile pyIsSpace).reverse.dropWhile pyIsSpace |>.reverse⟩

/-- The Notion allocator page fields probed by web_collect: each field is
`none` when the property is missing or not of the probed type. -/
structure NotionPage where
  mainWebsite : Option String
  website : Option String
  domainText : Option String
  investmentsPageUrl : Option String
  latestReportUrl : Option String

/-- Source: web_collect.get_base_url_from_notion_page. -/
def get_base_url_from_notion_page (p : NotionPage) : String :=
  if truthyOpt p.mainWebsite then rstripChar '/' (p.mainWebsite.getD "")
  else if truthyOpt p.website then rstripChar '/' (p.website.getD "")
  else
    let domain := p.domainText.getD ""
    if domain ≠ "" then
      let d := pyStrip domain
      if startsWithB "http://" d || startsWithB "https://" d then rstripChar '/' d
      else rstripChar '/' ("https://" ++ d)
    else ""

/-- Model of urllib.parse.urljoin restricted to the shapes produced by
normalize_url: the base always ends in a slash and the path never starts
with one, so the join is the concatenation unless the path is absolute. -/
def urljoinModel (base rel : String) : String :=
  if startsWithB "http://" rel || startsWithB "https://" rel then rel
  else base ++ rel

/-- Source: web_collect.normalize_url. -/
def normalize_url (base_url path : String) : String :=
  if base_url = "" then ""
  else urljoinModel (rstripChar '/' base_url ++ "/") (lstripChar '/' path)

/- ===== PDF candidate prioritization ===== -/

/-- Source: the pdf_priority closure of web_collect.collect_web_text.  Base
score 100, lower is better. -/
def pdf_priority (url : String) : Int :=
  let u := pyLower url
  let uc := pyRemove (pyRemove u "-") "_"
  let s : Int := 100
  let s := if substrB "fy25" u || substrB "fy24" u || substrB "2025" u || substrB "2024" u
    then s - 50
    else if substrB "fy23" u || substrB "2023" u then s - 40
    else if substrB "fy22" u || substrB "2022" u then s - 30
    else s
  let s := if substrB "board" u && substrB "book" u then s - 40
    else if substrB "board" u then s - 25
    else s
  let s := if substrB "annualreportbook" uc then s - 30
    else if substrB "annual" u && substrB "report" u then s - 20
    else s
  let s := if substrB "investment" u then s - 15 else s
  let s := if substrB "cafr" u || substrB "acfr" u then s - 10 else s
  let s := if substrB "introductory" u || substrB "intro" u then s + 20 else s
  let s := if substrB "financialsection" uc then s + 10 else s
  let s := if substrB "fy20" u || substrB "fy19" u || substrB "fy18" u then s + 30 else s
  let s := if substrB "2020" u || substrB "2019" u || substrB "2018" u then s + 30 else s
  s

/-- Source: `sorted(unique_urls(pdf_urls), key=pdf_priority)` in
collect_web_text.  Python sorted is a stable sort by the key;
`List.insertionSort` over the key preorder is stable and sorted, hence
extensionally the same function. -/
def prioritizePdfUrls (urls : List String) : List String :=
  List.insertionSort (fun a b => pdf_priority a ≤ pdf_priority b) (unique_urls urls)

/- ===== collect_web_text ===== -/

/-- The search-discovered URLs passed to collect_web_text; all fields
default to absent, matching the `discovered_urls or {}` of the source. -/
structure DiscoveredUrls where
  investments_url : Option String := none
  annual_report_url : Option String := none
  about_url : Option String := none
  team_url : Option String := none
  pdf_urls : List String := []

/-- The fetching environment of one collect_web_text run: what extract_text
and fetch_page_and_find_pdfs return for each URL.  Both already degrade to
empty results on any failure, so they are plain functions here. -/
structure FetchEnv where
  extract_text : String → String
  fetch_page_and_find_pdfs : String → String × List String

/-- The four candidate URL buckets after the priority-ordered assembly and
deduplication steps of collect_web_text. -/
structure UrlBuckets where
  about_urls : List String
  policy_urls : List String
  report_urls : List String
  pdf_urls : List String

/-- The about bucket before deduplication: search-discovered about and team
URLs, the root page, then the path guesses. -/
def aboutUrls0 (page : NotionPage) (disc : DiscoveredUrls) : List String :=
  let base_url := get_base_url_from_notion_page page
  (if truthyOpt disc.about_url then [disc.about_url.getD ""] else [])
  ++ (if truthyOpt disc.team_url then [disc.team_url.getD ""] else [])
  ++ (if base_url ≠ "" then [base_url] else [])
  ++ ABOUT_PATHS.map (normalize_url base_url)

/-- The policy bucket before deduplication: the explicit Notion investments
page, the search-discovered investments URL, then the path guesses. -/
def policyUrls0 (page : NotionPage) (disc : DiscoveredUrls) : List String :=
  let base_url := get_base_url_from_notion_page page
  (if truthyOpt page.investmentsPageUrl then [page.investmentsPageUrl.getD ""] else [])
  ++ (if truthyOpt disc.investments_url then [disc.investments_url.getD ""] else [])
  ++ INVESTMENT_PATHS.map (normalize_url base_url)
  ++ POLICY_PATHS.map (normalize_url base_url)

/-- The report bucket before deduplication: the non-PDF explicit and
discovered report URLs, then the path guesses. -/
def reportUrls0 (page : NotionPage) (disc : DiscoveredUrls) : List String :=
  let base_url := get_base_url_from_notion_page page
  let latest := page.latestReportUrl.getD ""
  let discReport := disc.annual_report_url.getD ""
  (if truthyOpt page.latestReportUrl && !endsWithB ".pdf" (pyLower latest)
    then [latest] else [])
  ++ (if truthyOpt disc.annual_report_url && !endsWithB ".pdf" (pyLower discReport)
    then [discReport] else [])
  ++ REPORT_PATHS.map (normalize_url base_url)

/-- The PDF bucket before deduplication: PDF-suffixed explicit and
discovered report URLs, then the PDFs found by search. -/
def pdfUrls0 (page : NotionPage) (disc : DiscoveredUrls) : List String :=
  let latest := page.latestReportUrl.getD ""
  let discReport := disc.annual_report_url.getD ""
  (if truthyOpt page.latestReportUrl && endsWithB ".pdf" (pyLower latest)
    then [latest] else [])
  ++ (if truthyOpt disc.annual_report_url && endsWithB ".pdf" (pyLower discReport)
    then [discReport] else [])
  ++ disc.pdf_urls

/-- URL assembly of collect_web_text: explicit Notion URLs, then
search-discovered URLs, then the root page, then the path guesses; each
bucket deduplicated. -/
def collectUrlBuckets (page : NotionPage) (disc : DiscoveredUrls) : UrlBuckets :=
  UrlBuckets.mk
    (unique_urls (aboutUrls0 page disc))
    (unique_urls (policyUrls0 page disc))
    (unique_urls (reportUrls0 page disc))
    (unique_urls (pdfUrls0 page disc))

/-- The about-bucket fetch loop: texts of the first ten about URLs, empty
results skipped. -/
def aboutTextsOf (env : FetchEnv) (page : NotionPage) (disc : DiscoveredUrls) : List String :=
  ((((collectUrlBuckets page disc).about_urls).take MAX_URLS_PER_BUCKET).map
    env.extract_text).filter (· ≠ "")

/-- The policy-bucket fetch loop: collects page texts and appends newly
found PDF links to the running PDF list. -/
def policyFetch (env : FetchEnv) (urls pdfs : List String) : List String × List String :=
  (urls.take MAX_URLS_PER_BUCKET).foldl (fun acc url =>
    let r := env.fetch_page_and_find_pdfs url
    let texts := if r.1 ≠ "" then acc.1 ++ [r.1] else acc.1
    let newPdfs := r.2.foldl (fun pu p => if p ∈ pu then pu else pu ++ [p]) acc.2
    (texts, newPdfs)) ([], pdfs)

/-- The report-bucket fetch loop: as the policy loop, but PDF links whose
URL mentions an annual-report keyword are inserted at the front. -/
def reportFetch (env : FetchEnv) (urls pdfs : List String) : List String × List String :=
  (urls.take MAX_URLS_PER_BUCKET).foldl (fun acc url =>
    let r := env.fetch_page_and_find_pdfs url
    let texts := if r.1 ≠ "" then acc.1 ++ [r.1] else acc.1
    let newPdfs := r.2.foldl (fun pu p =>
      if ["annual", "cafr", "investment", "acfr", "report"].any
          (fun kw => substrB kw (pyLower p)) then
        if p ∈ pu then pu else p :: pu
      else if p ∈ pu then pu else pu ++ [p]) acc.2
    (texts, newPdfs)) ([], pdfs)

/-- The policy bucket texts of one run. -/
def policyTextsOf (env : FetchEnv) (page : NotionPage) (disc : DiscoveredUrls) : List String :=
  let bk := collectUrlBuckets page disc
  (policyFetch env bk.policy_urls bk.pdf_urls).1

/-- The report bucket: PDF texts of the top three prioritized PDF URLs
first, then the HTML report page texts. -/
def allReportTextsOf (env : FetchEnv) (page : NotionPage) (disc : DiscoveredUrls) : List String :=
  let bk := collectUrlBuckets page disc
  let afterPolicy := policyFetch env bk.policy_urls bk.pdf_urls
  let afterReport := reportFetch env bk.report_urls afterPolicy.2
  let sortedPdfs := prioritizePdfUrls afterReport.2
  let pdfTexts := ((sortedPdfs.take 3).map env.extract_text).filter (· ≠ "")
  pdfTexts ++ afterReport.1

/-- The output mapping of collect_web_text. -/
structure CollectResult where
  about_text : String
  policy_text : String
  report_text : String

/-- Source: web_collect.collect_web_text.  Aggregate the three buckets and
trim each to its character limit. -/
def collect_web_text (env : FetchEnv) (page : NotionPage) (disc : DiscoveredUrls) : CollectResult :=
  { about_text := trim_text (String.intercalate " " (aboutTextsOf env page disc)) MAX_TEXT_CHARS,
    policy_text := trim_text (String.intercalate " " (policyTextsOf env page disc)) MAX_TEXT_CHARS,
    report_text := trim_text (String.intercalate " " (allReportTextsOf env page disc)) MAX_REPORT_TEXT_CHARS }

end WebCollect


namespace WebSearch

open WebCollect

/-- Modelled from the claim wording, for comparison with the source
predicate `pdfIsRelevant`: a PDF result is kept when subject-name tokens
(words longer than 2 characters, or the compressed concatenation of the
whole name) appear in its URL, title, or snippet, or the URL matches the
known domain. -/
def pdfKeptSpec (name : String) (domain : Option String) (r : SearchResult) : Bool :=
  ((allocatorWords name) ++ [allocatorCompressed name]).any (fun w =>
    substrB w (pyLower r.link) || substrB w (pyLower r.title) || substrB w (pyLower r.snippet))
  || (match domain with
      | some d => d ≠ "" && substrB ⟨(pyLower d).data.takeWhile (· ≠ '.')⟩ (pyLower r.link)
      | none => false)

end WebSearch

namespace Claims

open WebCollect WebSearch

instance : IsTotal String (fun a b => pdf_priority a ≤ pdf_priority b) :=
  ⟨fun x y => Int.le_total (pdf_priority x) (pdf_priority y)⟩

instance : IsTrans String (fun a b => pdf_priority a ≤ pdf_priority b) :=
  ⟨fun _ _ _ h1 h2 => le_trans h1 h2⟩

instance : IsTotal String (fun a b => extractYearPriority a ≤ extractYearPriority b) :=
  ⟨fun x y => Nat.le_total (extractYearPriority x) (extractYearPriority y)⟩

instance : IsTrans String (fun a b => extractYearPriority a ≤ extractYearPriority b) :=
  ⟨fun _ _ _ h1 h2 => Nat.le_trans h1 h2⟩

end Claims

namespace WebCollect

/- ===== Helper lemmas ===== -/

theorem trim_text_length_le (text : String) (limit : Nat) :
    (trim_text text limit).length ≤ limit := by
  unfold trim_text
  split
  · simp [String.length]
  · simp [String.length, List.length_take_le]

theorem uniqueUrlsAux_sublist (l seen : List String) :
    (uniqueUrlsAux l seen).Sublist l := by
  induction l generalizing seen with
  | nil => simp [uniqueUrlsAux]
  | cons u rest ih =>
    unfold uniqueUrlsAux
    split
    · exact (ih seen).cons u
    · exact (ih (u :: seen)).cons₂ u

theorem mem_uniqueUrlsAux {u : String} (l seen : List String) :
    u ∈ uniqueUrlsAux l seen ↔ u ∈ l ∧ u ∉ seen ∧ u ≠ "" := by
  induction l generalizing seen with
  | nil => simp [uniqueUrlsAux]
  | cons v rest ih =>
    unfold uniqueUrlsAux
    split
    · rename_i hv
      simp only [Bool.or_eq_true, decide_eq_true_eq] at hv
      rw [ih]
      constructor
      · rintro ⟨h1, h2, h3⟩
        exact ⟨List.mem_cons_of_mem v h1, h2, h3⟩
      · rintro ⟨h1, h2, h3⟩
        rcases List.mem_cons.mp h1 with h1 | h1
        · subst h1
          rcases hv with h | h
          · exact absurd h h3
          · exact absurd h h2
        · exact ⟨h1, h2, h3⟩
    · rename_i hv
      simp only [Bool.or_eq_true, decide_eq_true_eq] at hv
      push_neg at hv
      constructor
      · intro h
        rcases List.mem_cons.mp h with h1 | h1
        · subst h1
          exact ⟨List.mem_cons_self _ _, hv.2, hv.1⟩
        · rw [ih] at h1
          obtain ⟨m1, m2, m3⟩ := h1
          have hns : u ∉ seen := fun hs => m2 (List.mem_cons_of_mem v hs)
          exact ⟨List.mem_cons_of_mem v m1, hns, m3⟩
      · rintro ⟨h1, h2, h3⟩
        rcases List.mem_cons.mp h1 with h1 | h1
        · subst h1
          exact List.mem_cons_self u _
        · by_cases huv : u = v
          · subst huv
            exact List.mem_cons_self u _
          · apply List.mem_cons_of_mem
            rw [ih]
            refine ⟨h1, fun hm => ?_, h3⟩
            rcases List.mem_cons.mp hm with h | h
            · exact huv h
            · exact h2 h

theorem uniqueUrlsAux_nodup (l seen : List String) :
    (uniqueUrlsAux l seen).Nodup := by
  induction l generalizing seen with
  | nil => simp [uniqueUrlsAux]
  | cons u rest ih =>
    unfold uniqueUrlsAux
    split
    · exact ih seen
    · refine List.nodup_cons.mpr ⟨fun hmem => ?_, ih (u :: seen)⟩
      rw [mem_uniqueUrlsAux] at hmem
      exact hmem.2.1 (List.mem_cons_self u seen)

theorem uniqueUrlsAux_fixed (l seen : List String) (hn : l.Nodup)
    (h : ∀ u ∈ l, u ∉ seen ∧ u ≠ "") : uniqueUrlsAux l seen = l := by
  induction l generalizing seen with
  | nil => simp [uniqueUrlsAux]
  | cons u rest ih =>
    have hu := h u (List.mem_cons_self u rest)
    unfold uniqueUrlsAux
    rw [if_neg]
    · rw [ih (u :: seen) (List.nodup_cons.mp hn).2]
      intro v hv
      refine ⟨fun hmem => ?_, (h v (List.mem_cons_of_mem u hv)).2⟩
      rcases List.mem_cons.mp hmem with h1 | h1
      · exact (List.nodup_cons.mp hn).1 (h1 ▸ hv)
      · exact (h v (List.mem_cons_of_mem u hv)).1 h1
    · simp only [Bool.or_eq_true, decide_eq_true_eq]
      push_neg
      exact ⟨hu.2, hu.1⟩

end WebCollect

namespace Claims

open WebCollect WebSearch

/-- Claim C10: unique_urls is idempotent and order-preserving: applying it
twice equals applying it once; the output has no repeated URL; the output
is a subsequence of the input (so each kept URL keeps its relative
position), and it keeps exactly the nonempty input URLs. -/
theorem claim10_unique_urls :
    (∀ xs : List String, unique_urls (unique_urls xs) = unique_urls xs)
    ∧ (∀ xs : List String, (unique_urls xs).Nodup)
    ∧ (∀ xs : List String, (unique_urls xs).Sublist xs)
    ∧ (∀ (xs : List String) (u : String), u ∈ unique_urls xs ↔ u ∈ xs ∧ u ≠ "") := by
  have hmem : ∀ (xs : List String) (u : String),
      u ∈ unique_urls xs ↔ u ∈ xs ∧ u ≠ "" := by
    intro xs u
    unfold unique_urls
    rw [mem_uniqueUrlsAux]
    simp
  refine ⟨fun xs => ?_, fun xs => uniqueUrlsAux_nodup xs [],
    fun xs => uniqueUrlsAux_sublist xs [], hmem⟩
  show uniqueUrlsAux (unique_urls xs) [] = unique_urls xs
  apply uniqueUrlsAux_fixed _ _ (uniqueUrlsAux_nodup xs [])
  intro u hu
  exact ⟨by simp, ((hmem xs u).mp hu).2⟩

/-- Claim C1: for every environment, allocator page and set of discovered
URLs, the mapping returned by collect_web_text has its about and policy
texts bounded by 25000 characters and its report text bounded by 50000
characters, each being the joined bucket text with whitespace runs
collapsed and truncated to its limit. -/
theorem claim1_collect_web_text_bounded :
    MAX_TEXT_CHARS = 25000 ∧ MAX_REPORT_TEXT_CHARS = 50000 ∧
    ∀ (env : FetchEnv) (page : NotionPage) (disc : DiscoveredUrls),
      (collect_web_text env page disc).about_text.length ≤ MAX_TEXT_CHARS
      ∧ (collect_web_text env page disc).policy_text.length ≤ MAX_TEXT_CHARS
      ∧ (collect_web_text env page disc).report_text.length ≤ MAX_REPORT_TEXT_CHARS
      ∧ (collect_web_text env page disc).about_text
          = trim_text (String.intercalate " " (aboutTextsOf env page disc)) MAX_TEXT_CHARS
      ∧ (collect_web_text env page disc).policy_text
          = trim_text (String.intercalate " " (policyTextsOf env page disc)) MAX_TEXT_CHARS
      ∧ (collect_web_text env page disc).report_text
          = trim_text (String.intercalate " " (allReportTextsOf env page disc)) MAX_REPORT_TEXT_CHARS := by
  refine ⟨rfl, rfl, fun env page disc => ?_⟩
  have ha : (collect_web_text env page disc).about_text
      = trim_text (String.intercalate " " (aboutTextsOf env page disc)) MAX_TEXT_CHARS := by
    rw [collect_web_text]
  have hp : (collect_web_text env page disc).policy_text
      = trim_text (String.intercalate " " (policyTextsOf env page disc)) MAX_TEXT_CHARS := by
    rw [collect_web_text]
  have hr : (collect_web_text env page disc).report_text
      = trim_text (String.intercalate " " (allReportTextsOf env page disc)) MAX_REPORT_TEXT_CHARS := by
    rw [collect_web_text]
  refine ⟨?_, ?_, ?_, ha, hp, hr⟩
  · rw [ha]
    exact trim_text_length_le _ _
  · rw [hp]
    exact trim_text_length_le _ _
  · rw [hr]
    exact trim_text_length_le _ _

end Claims

namespace Claims

open WebCollect WebSearch

/-- Claim C5: for every URL ending in ".pdf" whose HEAD size probe reports
a content length above the 50 MB cap, safe_get returns the empty failure
pair without ever issuing the GET request. -/
theorem claim5_size_cap_no_get (url : String) (t : Transport) (h : HeadResp) (n : Int)
    (hpdf : endsWithB ".pdf" (pyLower url) = true)
    (hhead : t.headResult = Except.ok h)
    (hlen : contentLengthInt h = some n)
    (hbig : (MAX_PDF_SIZE_MB : Int) * 1024 * 1024 < n) :
    safe_get url t = (("", ""), false) := by
  have hne : url ≠ "" := by
    intro he
    rw [he] at hpdf
    exact absurd hpdf (by decide)
  have htl : pdfTooLarge url t = true := by
    unfold pdfTooLarge
    rw [hpdf, hhead]
    simp only [hlen, if_pos, gt_iff_lt]
    exact decide_eq_true hbig
  unfold safe_get
  rw [if_neg hne, if_pos htl]

/-- Witness for claim C5 at a concrete oversized PDF fetch. -/
theorem claim5_size_cap_no_get_witness :
    safe_get "http://fund.example.org/cafr.pdf"
      ⟨Except.ok ⟨some "99999999"⟩,
       Except.ok ⟨200, "application/pdf", "RAWBYTES", "RAWTEXT"⟩⟩ = (("", ""), false) :=
  claim5_size_cap_no_get _ _ ⟨some "99999999"⟩ 99999999 (by decide) rfl (by decide) (by decide)

end Claims

namespace Claims

open WebCollect WebSearch

/-- Claim C2: every failure mode degrades to an empty result rather than an
exception: safe_get yields the empty pair on a transport exception or a
non-200 status; the HTML extractor yields the empty string on empty markup,
an extractor exception, or no extraction; the PDF extractor yields the
empty string on empty or unopenable bytes; and collect_web_text always
produces its full output mapping. -/
theorem claim2_degrade_to_empty :
    (∀ (url : String) (t : Transport), t.getResult = Except.error () →
      (safe_get url t).1 = ("", ""))
    ∧ (∀ (url : String) (t : Transport) (resp : GetResp), t.getResult = Except.ok resp →
      resp.status ≠ 200 → (safe_get url t).1 = ("", ""))
    ∧ (∀ traf : String → Except Unit (Option String), extract_text_from_html "" traf = "")
    ∧ (∀ (html : String) (traf : String → Except Unit (Option String)),
      traf html = Except.error () → extract_text_from_html html traf = "")
    ∧ (∀ (html : String) (traf : String → Except Unit (Option String)),
      traf html = Except.ok none → extract_text_from_html html traf = "")
    ∧ (∀ (d : PdfData) (avail : Bool), d.isEmpty = true → extract_text_from_pdf d avail = "")
    ∧ (∀ (d : PdfData) (avail : Bool), d.parsedPlumber = none → d.parsedPypdf = none →
      extract_text_from_pdf d avail = "")
    ∧ (∀ (env : FetchEnv) (page : NotionPage) (disc : DiscoveredUrls),
      ∃ a p r : String, collect_web_text env page disc = ⟨a, p, r⟩) := by
  refine ⟨?_, ?_, ?_, ?_, ?_, ?_, ?_, ?_⟩
  · intro url t hget
    unfold safe_get
    split
    · rfl
    · split
      · rfl
      · rw [hget]
  · intro url t resp hget hstatus
    unfold safe_get
    split
    · rfl
    · split
      · rfl
      · rw [hget]
        simp [hstatus]
  · intro traf
    rfl
  · intro html traf htraf
    unfold extract_text_from_html
    split
    · rfl
    · rw [htraf]
  · intro html traf htraf
    unfold extract_text_from_html
    split
    · rfl
    · rw [htraf]
      rfl
  · intro d avail hempty
    unfold extract_text_from_pdf
    rw [if_pos hempty]
  · intro d avail h1 h2
    unfold extract_text_from_pdf extract_text_from_pdf_pdfplumber extract_text_from_pdf_pypdf
    rw [h1, h2]
    rcases d with ⟨e, pp, py⟩
    cases e <;> cases avail <;> simp
  · intro env page disc
    exact ⟨_, _, _, rfl⟩

/-- Witness for claim C2 at concrete failing inputs. -/
theorem claim2_degrade_to_empty_witness :
    (safe_get "http://fund.example.org/about" ⟨Except.error (), Except.error ()⟩).1 = ("", "")
    ∧ (safe_get "http://fund.example.org/about"
        ⟨Except.error (), Except.ok ⟨404, "text/html", "B", "T"⟩⟩).1 = ("", "")
    ∧ extract_text_from_html "" (fun _ => Except.ok (some "x")) = ""
    ∧ extract_text_from_html "<p>x</p>" (fun _ => Except.error ()) = ""
    ∧ extract_text_from_html "<p>x</p>" (fun _ => Except.ok none) = ""
    ∧ extract_text_from_pdf ⟨true, none, none⟩ true = ""
    ∧ extract_text_from_pdf ⟨false, none, none⟩ true = ""
    ∧ ∃ a p r : String, collect_web_text ⟨fun _ => "", fun _ => ("", [])⟩
        ⟨none, none, none, none, none⟩ {} = ⟨a, p, r⟩ :=
  ⟨claim2_degrade_to_empty.1 _ _ rfl,
   claim2_degrade_to_empty.2.1 _ _ _ rfl (by decide),
   claim2_degrade_to_empty.2.2.1 _,
   claim2_degrade_to_empty.2.2.2.1 _ _ rfl,
   claim2_degrade_to_empty.2.2.2.2.1 _ _ rfl,
   claim2_degrade_to_empty.2.2.2.2.2.1 ⟨true, none, none⟩ true rfl,
   claim2_degrade_to_empty.2.2.2.2.2.2.1 ⟨false, none, none⟩ true rfl rfl,
   claim2_degrade_to_empty.2.2.2.2.2.2.2 _ _ _⟩

end Claims

namespace WebCollect

theorem tocLoop_spec (l : List String) (i N : Nat) (hlen : i < l.length)
    (hp : pagePatternNum (l.getD i "") = some N) (hN : 4 ≤ N)
    (hprev : ∀ j, j < i → ∀ M, pagePatternNum (l.getD j "") = some M → M ≤ 3) :
    tocLoop l = some (N - 3) := by
  induction l generalizing i with
  | nil => simp at hlen
  | cons p rest ih =>
    cases i with
    | zero =>
      rw [List.getD_cons_zero] at hp
      unfold tocLoop
      rw [hp]
      have h3 : N - 3 ≠ 0 := by omega
      simp [h3]
    | succ i' =>
      have hhead : ∀ M, pagePatternNum p = some M → M ≤ 3 := by
        intro M hM
        exact hprev 0 (Nat.succ_pos i') M (by rwa [List.getD_cons_zero])
      have htail : tocLoop rest = some (N - 3) := by
        apply ih i' (by simpa using hlen) (by rwa [List.getD_cons_succ] at hp) ?_
        intro j hj M hM
        exact hprev (j + 1) (by omega) M (by rwa [List.getD_cons_succ])
      unfold tocLoop
      cases hm : pagePatternNum p with
      | none => exact htail
      | some M =>
        have hM3 := hhead M hm
        have h3 : ¬(M - 3 ≠ 0) := by omega
        simp only [h3, if_false]
        exact htail

end WebCollect

namespace Claims

open WebCollect WebSearch

/-- Counterexample to claim C3 as stated: for the one-page document whose
only page reads "investment section 50", the TOC number N is 50 and the
locator returns start 47 and end 1; the start page is not clamped to the
one-page document length, contradicting that start and end are both
clamped to the page count. -/
theorem claim3_counterexample :
    find_investment_section_pages ["investment section 50"] = some (47, 1)
    ∧ ¬(47 ≤ (["investment section 50"] : List String).length) :=
  ⟨rfl, by decide⟩

/-- Claim C3 amended: when the first TOC-pattern match with page number N
at least 4 occurs on page i among the first 15 pages (earlier matches with
N at most 3 are discarded), the locator returns start N - 3 (clamped below
at zero but not to the page count) and end min(start + 40, page count). -/
theorem claim3_toc_locator_amended (pages : List String) (i N : Nat)
    (h15 : i < 15) (hlen : i < pages.length)
    (hp : pagePatternNum (pages.getD i "") = some N) (hN : 4 ≤ N)
    (hprev : ∀ j, j < i → ∀ M, pagePatternNum (pages.getD j "") = some M → M ≤ 3) :
    find_investment_section_pages pages = some (N - 3, min (N - 3 + 40) pages.length) := by
  have hget : ∀ j, j < 15 → (pages.take 15).getD j "" = pages.getD j "" := by
    intro j hj
    simp [List.getD_eq_getElem?_getD, List.getElem?_take, hj]
  have htoc : tocLoop (pages.take 15) = some (N - 3) := by
    apply tocLoop_spec (pages.take 15) i N ?_ ?_ hN ?_
    · rw [List.length_take]
      omega
    · rwa [hget i h15]
    · intro j hj M hM
      exact hprev j hj M (by rwa [hget j (by omega)] at hM)
  unfold find_investment_section_pages
  rw [htoc]

/-- Witness for the amended claim C3 at the synthetic document of the
specification: 45 pages, page index 4 holding "Investment Section ... 45";
the locator returns start 42 (within the stated range 40 to 44) and end
min(82, 45) = 45. -/
theorem claim3_toc_locator_amended_witness :
    find_investment_section_pages
      (List.replicate 4 "" ++ ["Investment Section ... 45"] ++ List.replicate 40 "")
      = some (42, 45)
    ∧ 40 ≤ 42 ∧ 42 ≤ 44 := by
  refine ⟨?_, by decide, by decide⟩
  have h := claim3_toc_locator_amended
    (List.replicate 4 "" ++ ["Investment Section ... 45"] ++ List.replicate 40 "")
    4 45 (by decide) (by decide) rfl (by decide) ?_
  · exact h
  · intro j hj M hM
    have hnone : pagePatternNum
        ((List.replicate 4 "" ++ ["Investment Section ... 45"] ++ List.replicate 40 "").getD j "")
        = none := by
      interval_cases j <;> rfl
    rw [hnone] at hM
    exact Option.noConfusion hM

end Claims

namespace WebCollect

theorem foldl_if_count (l : List String) (p : String → Bool) (k : Nat) :
    ∀ acc, l.foldl (fun a m => if p m then a + k else a) acc = acc + k * l.countP p := by
  induction l with
  | nil =>
    intro acc
    simp
  | cons m rest ih =>
    intro acc
    rw [List.foldl_cons]
    by_cases h : p m
    · rw [if_pos h, ih, List.countP_cons, if_pos h]
      ring
    · rw [if_neg h, ih, List.countP_cons, if_neg h]
      ring

theorem score_page_relevance_eq (text : String) :
    score_page_relevance text
      = 5 * INVESTMENT_SECTION_MARKERS.countP (fun m => substrB m (pyLower text))
        + HIGH_VALUE_KEYWORDS.countP (fun k => substrB k (pyLower text)) := by
  by_cases h : text = ""
  · subst h
    decide
  · unfold score_page_relevance
    rw [if_neg h, foldl_if_count, foldl_if_count]
    ring

theorem splitStep_foldl (doc : PDFDoc) (idxs : List Nat) :
    ∀ a b : List String, idxs.foldl (splitStep doc) (a, b)
      = (a ++ (idxs.filter (pageHighValue doc)).map (pageTag doc),
         b ++ (idxs.filter (pageRegular doc)).map (pageText doc)) := by
  induction idxs with
  | nil =>
    intro a b
    simp
  | cons i rest ih =>
    intro a b
    rw [List.foldl_cons]
    by_cases h1 : hasNonWs (pageText doc i)
    · by_cases h2 : 3 ≤ score_page_relevance (pageText doc i)
      · have hstep : splitStep doc (a, b) i = (a ++ [pageTag doc i], b) := by
          simp [splitStep, pageTag, h1, h2]
        have hhv : pageHighValue doc i = true := by
          simp [pageHighValue, h1, h2]
        have hreg : pageRegular doc i = false := by
          simp [pageRegular, h1, h2]
        rw [hstep, ih, List.filter_cons, List.filter_cons, hhv, hreg]
        simp
      · have hstep : splitStep doc (a, b) i = (a, b ++ [pageText doc i]) := by
          simp [splitStep, h1, h2]
        have hhv : pageHighValue doc i = false := by
          simp [pageHighValue, h2]
        have hreg : pageRegular doc i = true := by
          simp [pageRegular, h1, h2]
        rw [hstep, ih, List.filter_cons, List.filter_cons, hhv, hreg]
        simp
    · have hstep : splitStep doc (a, b) i = (a, b) := by
        simp [splitStep, h1]
      have hhv : pageHighValue doc i = false := by
        simp [pageHighValue, h1]
      have hreg : pageRegular doc i = false := by
        simp [pageRegular, h1]
      rw [hstep, ih, List.filter_cons, List.filter_cons, hhv, hreg]
      simp

theorem plumberAllTexts_eq (doc : PDFDoc) (idxs : List Nat) :
    plumberAllTexts doc idxs
      = (idxs.filter (pageHighValue doc)).map (pageTag doc)
        ++ (idxs.filter (pageRegular doc)).map (pageText doc) := by
  unfold plumberAllTexts splitScored
  rw [splitStep_foldl]
  simp

end WebCollect

namespace Claims

open WebCollect WebSearch

/-- Claim C4: the relevance score of a page is five times the number of
distinct present section markers plus the number of distinct present
secondary keywords; the emitted page texts place every read high-scoring
page (tagged with its 1-based page number) before all remaining non-empty
pages; in particular a page holding "asset allocation" plus three secondary
keywords scores at least 3 and precedes a page scoring 0. -/
theorem claim4_page_scoring_and_order :
    (∀ text : String, score_page_relevance text
      = 5 * INVESTMENT_SECTION_MARKERS.countP (fun m => substrB m (pyLower text))
        + HIGH_VALUE_KEYWORDS.countP (fun k => substrB k (pyLower text)))
    ∧ (∀ (doc : PDFDoc) (idxs : List Nat),
      plumberAllTexts doc idxs
        = (idxs.filter (pageHighValue doc)).map (pageTag doc)
          ++ (idxs.filter (pageRegular doc)).map (pageText doc))
    ∧ score_page_relevance "Asset Allocation\nprivate equity real estate hedge fund" = 9
    ∧ score_page_relevance "hello world" = 0
    ∧ plumberAllTexts
        [⟨"hello world", []⟩, ⟨"Asset Allocation\nprivate equity real estate hedge fund", []⟩]
        [0, 1]
      = ["[Page 2]\nAsset Allocation\nprivate equity real estate hedge fund", "hello world"] :=
  ⟨score_page_relevance_eq, plumberAllTexts_eq, rfl, rfl, rfl⟩

/-- Claim C9: the pages read by one PDF extraction never exceed the page
cap: the pdfplumber path reads at most 100 pages and the pypdf path at most
60, the page list being truncated before any text is assembled (both
extractors are exactly the join over their truncated page list). -/
theorem claim9_page_caps :
    (∀ doc : PDFDoc, (pagesToReadPlumber doc 100).length ≤ 100)
    ∧ (∀ doc : PDFDoc, (pagesToReadPypdf doc 60).length ≤ 60)
    ∧ (∀ doc : PDFDoc, extractPlumberDoc doc 100
        = String.intercalate "\n\n" (plumberAllTexts doc (pagesToReadPlumber doc 100)))
    ∧ (∀ doc : PDFDoc, extractPypdfDoc doc 60
        = String.intercalate "\n\n"
            (((pagesToReadPypdf doc 60).map (fun i => (doc.getD i ⟨"", []⟩).text)).filter hasNonWs)) := by
  refine ⟨fun doc => ?_, fun doc => ?_, fun doc => rfl, fun doc => rfl⟩
  · exact List.length_take_le _ _
  · by_cases h : doc.length ≤ 60
    · simp [pagesToReadPypdf, h]
    · simp only [pagesToReadPypdf, h, if_false, List.length_take]
      omega

end Claims

namespace WebSearch

open WebCollect

theorem bracketPriority_le (s : String) (p : Nat) (hp : bracketPriority s = some p) :
    p = 0 ∨ p = 2 := by
  unfold bracketPriority at hp
  split at hp
  · exact Option.noConfusion hp
  · split at hp
    · cases hp
      exact Or.inl rfl
    · split at hp
      · split at hp
        · cases hp
          exact Or.inl rfl
        · cases hp
          exact Or.inr rfl
      · exact Option.noConfusion hp

theorem textYearsPriority_le (s : String) : textYearsPriority s ≤ 2 := by
  unfold textYearsPriority
  split
  · omega
  · split
    · omega
    · split <;> omega

theorem extractYearPriority_le (s : String) : extractYearPriority s ≤ 2 := by
  unfold extractYearPriority
  cases hb : bracketPriority s with
  | none => exact textYearsPriority_le s
  | some p =>
    rcases bracketPriority_le s p hb with h | h <;> simp [h]

end WebSearch

namespace Claims

open WebCollect WebSearch

/-- Claim C6: the PDF candidate prioritizer sorts ascending by the score of
pdf_priority (base 100, lower is better), and on the example pair the board
book of fiscal year 25 (score 10) comes before the introductory section of
fiscal year 19 (score 150). -/
theorem claim6_pdf_prioritizer :
    (∀ urls : List String,
      List.Sorted (fun a b => pdf_priority a ≤ pdf_priority b) (prioritizePdfUrls urls))
    ∧ prioritizePdfUrls ["FY19_Introductory_Section.pdf", "FY25_Board_Book.pdf"]
        = ["FY25_Board_Book.pdf", "FY19_Introductory_Section.pdf"]
    ∧ pdf_priority "FY19_Introductory_Section.pdf" = 150
    ∧ pdf_priority "FY25_Board_Book.pdf" = 10 :=
  ⟨fun _ => List.sorted_insertionSort _ _, rfl, rfl, rfl⟩

/-- Claim C8: snippet recency ranking is a pure three-way priority sort:
every snippet gets priority 0, 1 or 2; the output is sorted by priority
alone; the sort is stable (a sublist of snippets of equal priority keeps
its discovery order); and the three-snippet example of the specification
sorts to itself, with priorities 0, 1 and 2 respectively. -/
theorem claim8_snippet_recency :
    (∀ xs : List String,
      List.Sorted (fun a b => extractYearPriority a ≤ extractYearPriority b)
        (sort_snippets_by_recency xs))
    ∧ (∀ xs l' : List String, l'.Sublist xs →
        (∀ a ∈ l', ∀ b ∈ l', extractYearPriority a = extractYearPriority b) →
        l'.Sublist (sort_snippets_by_recency xs))
    ∧ (∀ s : String, extractYearPriority s ≤ 2)
    ∧ extractYearPriority "[3 days ago] AUM grew" = 0
    ∧ extractYearPriority "no date here" = 1
    ∧ extractYearPriority "[2019] old news" = 2
    ∧ sort_snippets_by_recency ["[3 days ago] AUM grew", "no date here", "[2019] old news"]
        = ["[3 days ago] AUM grew", "no date here", "[2019] old news"] := by
  refine ⟨fun xs => List.sorted_insertionSort _ _, ?_, extractYearPriority_le,
    rfl, rfl, rfl, rfl⟩
  intro xs l' hsub heq
  apply List.sublist_insertionSort ?_ hsub
  rw [List.pairwise_iff_forall_sublist]
  intro a b hab
  have ha : a ∈ l' := hab.subset (by simp)
  have hb : b ∈ l' := hab.subset (by simp)
  exact le_of_eq (heq a ha b hb)

/-- Witness for claim C8: the stability clause applied to a concrete
two-snippet list of equal priority 1, which the sort keeps in discovery
order. -/
theorem claim8_snippet_recency_witness :
    (["grew in 2022", "shrank in 2022"] : List String).Sublist
      (sort_snippets_by_recency ["grew in 2022", "shrank in 2022"]) :=
  claim8_snippet_recency.2.1 ["grew in 2022", "shrank in 2022"]
    ["grew in 2022", "shrank in 2022"] (List.Sublist.refl _)
    (by
      intro a ha b hb
      fin_cases ha <;> fin_cases hb <;> rfl)

end Claims

namespace WebSearch

open WebCollect

theorem pdfUrlsOf_foldl (name : String) (domain : Option String) (results : List SearchResult) :
    ∀ acc : List String,
      results.foldl (fun acc r =>
        if endsWithB ".pdf" (pyLower r.link) && pdfIsRelevant name domain r then
          acc ++ [r.link]
        else acc) acc
      = acc ++ (results.filter (fun r =>
          endsWithB ".pdf" (pyLower r.link) && pdfIsRelevant name domain r)).map SearchResult.link := by
  induction results with
  | nil =>
    intro acc
    simp
  | cons r rest ih =>
    intro acc
    rw [List.foldl_cons]
    by_cases h : (endsWithB ".pdf" (pyLower r.link) && pdfIsRelevant name domain r) = true
    · rw [if_pos h, ih, List.filter_cons, if_pos h]
      simp
    · rw [if_neg h, ih, List.filter_cons, if_neg h]

theorem pdfIsRelevant_iff (name : String) (domain : Option String) (r : SearchResult) :
    pdfIsRelevant name domain r = true ↔
      (substrB (allocatorCompressed name)
          (pyRemove (pyRemove (pyRemove (pyLower r.link) "-") "_") "%20") = true
       ∨ substrB (pyLower name) (pyLower r.title) = true
       ∨ substrB (pyLower name) (pyLower r.snippet) = true
       ∨ (∃ d, domain = some d ∧ d ≠ ""
            ∧ substrB ⟨(pyLower d).data.takeWhile (· ≠ '.')⟩ (pyLower r.link) = true)
       ∨ (∃ w ∈ allocatorWords name, 4 < w.length ∧ substrB w (pyLower r.link) = true)) := by
  unfold pdfIsRelevant
  cases domain with
  | none =>
    simp [List.any_eq_true]
    tauto
  | some d =>
    simp [List.any_eq_true]
    tauto

end WebSearch

namespace Claims

open WebCollect WebSearch

/-- Counterexample to claim C7 as stated: for subject "Zoma Capital" the
name token "zoma" (longer than 2 characters) appears in the PDF URL, so the
claim keeps the result; the code excludes it, because URL tokens must be
longer than 4 characters and the title and snippet are only matched against
the whole name. -/
theorem claim7_counterexample :
    pdfIsRelevant "Zoma Capital" none ⟨"https://x.com/zoma.pdf", "", ""⟩ = false
    ∧ pdfKeptSpec "Zoma Capital" none ⟨"https://x.com/zoma.pdf", "", ""⟩ = true
    ∧ endsWithB ".pdf" (pyLower "https://x.com/zoma.pdf") = true
    ∧ pdfUrlsOf "Zoma Capital" none [⟨"https://x.com/zoma.pdf", "", ""⟩] = [] :=
  ⟨rfl, rfl, rfl, rfl⟩

/-- Claim C7 amended: a search result whose URL ends in ".pdf" is kept in
pdf_urls exactly when the compressed whole name occurs in the compressed
URL, or the full lowercased name occurs in the title or the snippet, or the
first dot-separated label of the known domain occurs in the URL, or some
name word longer than four characters occurs in the URL; every other PDF
result is excluded. -/
theorem claim7_pdf_filter_amended :
    (∀ (name : String) (domain : Option String) (results : List SearchResult),
      pdfUrlsOf name domain results
        = (results.filter (fun r =>
            endsWithB ".pdf" (pyLower r.link) && pdfIsRelevant name domain r)).map
            SearchResult.link)
    ∧ (∀ (name : String) (domain : Option String) (r : SearchResult),
      pdfIsRelevant name domain r = true ↔
        (substrB (allocatorCompressed name)
            (pyRemove (pyRemove (pyRemove (pyLower r.link) "-") "_") "%20") = true
         ∨ substrB (pyLower name) (pyLower r.title) = true
         ∨ substrB (pyLower name) (pyLower r.snippet) = true
         ∨ (∃ d, domain = some d ∧ d ≠ ""
              ∧ substrB ⟨(pyLower d).data.takeWhile (· ≠ '.')⟩ (pyLower r.link) = true)
         ∨ (∃ w ∈ allocatorWords name, 4 < w.length ∧ substrB w (pyLower r.link) = true))) :=
  ⟨fun name domain results => pdfUrlsOf_foldl name domain results [], pdfIsRelevant_iff⟩

end Claims
